import Mathlib

/-!
Shallow embedding of the ingestion-and-windowing core of PatinaSystemMonitor
(src/app.rs), together with theorems settling the specification claims.

Modelling conventions:
* Rust `f64` values are modelled as `ℚ`.  The only floating-point arithmetic
  the claims touch is `WINDOW_LENGTH.mul_f64(1.1)`, which is evaluated exactly
  below (see `WINDOW_START_MARGIN_NS`); the numeric projection of
  `MeasurementValue` merely injects integers into the number type, which `ℚ`
  renders exactly.
* Rust `Duration` values are modelled as `Nat` counts of nanoseconds.
  `Duration` ordering is lexicographic on (secs, nanos), which coincides with
  the order on total nanoseconds, and `Duration::from_nanos` is the identity
  in this model.
* `SystemTime::now()` is passed in explicitly as a `now : Nat` parameter.
* `VecDeque` is modelled as a `List` whose head is the front of the deque.
* `i64` / `u64` are modelled as `Int` / `Nat`; every `i64` is below `u64::MAX`,
  so `i64 → u64` `try_into` fails exactly on negative inputs.
-/

namespace Patina

/-- MeasurementValue (src/app.rs lines 15-22): tagged union over the five
field-value kinds of the line protocol. -/
inductive MeasurementValue : Type where
  | I64 (i : Int)
  | U64 (u : Nat)
  | F64 (f : ℚ)
  | String (s : String)
  | Boolean (b : Bool)
  deriving DecidableEq, Repr

/-- FieldValue of the external influxdb_line_protocol library (borrowed field
value of a parsed statement); structurally the same five kinds. -/
inductive FieldValue : Type where
  | I64 (i : Int)
  | U64 (u : Nat)
  | F64 (f : ℚ)
  | String (s : String)
  | Boolean (b : Bool)
  deriving DecidableEq, Repr

/-- impl From of MeasurementValue for f64 (src/app.rs lines 24-40): the
numeric projection used by queries. -/
def f64_from_measurement : MeasurementValue → ℚ
  | .I64 i => (i : ℚ)
  | .U64 u => (u : ℚ)
  | .F64 f => f
  | .String _ => 0
  | .Boolean b => if b then 1 else 0

/-- impl From of FieldValue for MeasurementValue (src/app.rs lines 42-52). -/
def measurement_from_field : FieldValue → MeasurementValue
  | .I64 i => .I64 i
  | .U64 u => .U64 u
  | .F64 f => .F64 f
  | .String s => .String s
  | .Boolean b => .Boolean b

/-- ParsedLine of the external influxdb_line_protocol library, restricted to
the components the converter reads: measurement name, an option-wrapped tag
list, the field set, and an option-wrapped i64 nanosecond timestamp. -/
structure ParsedLine : Type where
  measurement : String
  tag_set : Option (List (String × String))
  field_set : List (String × FieldValue)
  timestamp : Option Int
  deriving DecidableEq, Repr

/-- OwnedParsedLine (src/app.rs lines 54-61): the owned record; the timestamp
is a `Duration` since the unix epoch, i.e. a `Nat` of nanoseconds here. -/
structure OwnedParsedLine : Type where
  measurement : String
  tags : List (String × String)
  fields : List (String × MeasurementValue)
  unix_timestamp : Nat
  deriving DecidableEq, Repr

/-- `i64 → u64` try_into, as used on the wire timestamp (src/app.rs line 66):
succeeds exactly on non-negative inputs (every i64 fits in u64 when `0 ≤ ns`). -/
def i64_try_into_u64 (ns : Int) : Option Nat :=
  if 0 ≤ ns then some ns.toNat else none

/-- impl From of a ParsedLine reference for OwnedParsedLine
(src/app.rs lines 62-90).  `now` is the value of
`SystemTime::now().duration_since(UNIX_EPOCH).unwrap_or_default()` at
conversion time.  `Duration::from_nanos` is the identity in this model, the
tag copy `to_string` maps are identities, and
`tag_set.iter().flat_map(...)` over an `Option` of a list yields the list or
nothing. -/
def OwnedParsedLine.from_parsed (now : Nat) (parsed : ParsedLine) : OwnedParsedLine :=
  ⟨parsed.measurement,
   parsed.tag_set.getD [],
   parsed.field_set.map (fun kv => (kv.1, measurement_from_field kv.2)),
   (parsed.timestamp.bind i64_try_into_u64).getD now⟩

/-- offset_timestamp_secs_f64 (src/app.rs lines 93-95), in nanoseconds over ℚ. -/
def OwnedParsedLine.offset_timestamp_ns (self : OwnedParsedLine) (timestamp_relative : Nat) : ℚ :=
  (self.unix_timestamp : ℚ) - (timestamp_relative : ℚ)

/-- get_field_as_f64 (src/app.rs lines 97-102): first field whose key equals
`name`, projected to f64, else the caller-supplied default. -/
def OwnedParsedLine.get_field_as_f64 (self : OwnedParsedLine) (name : String) (default : ℚ) : ℚ :=
  match self.fields.find? (fun kv => kv.1 == name) with
  | none => default
  | some kv => f64_from_measurement kv.2

/-- TimeSeriesDatum (src/app.rs lines 105-109): one buffered element. -/
structure TimeSeriesDatum (T : Type) : Type where
  unix_timestamp : Nat
  data : T
  deriving DecidableEq, Repr

/-- TimeSeries (src/app.rs lines 112-115): a VecDeque of data, front at the
head of the list. -/
structure TimeSeries (T : Type) : Type where
  data : List (TimeSeriesDatum T)
  deriving DecidableEq, Repr

/-- TimeSeries::new (src/app.rs lines 118-122). -/
def TimeSeries.new (T : Type) : TimeSeries T := ⟨[]⟩

/-- TimeSeries::push (src/app.rs lines 124-129): push_back. -/
def TimeSeries.push (self : TimeSeries T) (unix_timestamp : Nat) (data : T) : TimeSeries T :=
  ⟨self.data ++ [⟨unix_timestamp, data⟩]⟩

/-- The while-let loop of TimeSeries::trim_older_than (src/app.rs lines
131-139): pop from the front while the front is strictly older than the
cutoff; stop at the first element at-or-after it. -/
def trimLoop (cutoff : Nat) : List (TimeSeriesDatum T) → List (TimeSeriesDatum T)
  | [] => []
  | d :: rest => if d.unix_timestamp < cutoff then trimLoop cutoff rest else d :: rest

/-- TimeSeries::trim_older_than (src/app.rs lines 131-139). -/
def TimeSeries.trim_older_than (self : TimeSeries T) (unix_timestamp : Nat) : TimeSeries T :=
  ⟨trimLoop unix_timestamp self.data⟩

/-- WINDOW_LENGTH (src/app.rs line 13): 60 seconds, in nanoseconds. -/
def WINDOW_LENGTH_NS : Nat := 60 * 1000000000

/-- The eviction margin `WINDOW_LENGTH.mul_f64(1.1)` (src/app.rs line 213),
evaluated exactly: in IEEE double precision `1.1` is
`4953959590107546 / 2^52`, so `60.0 * 1.1` has exact product
`66 + 6/2^50`, which is within half an ulp (`2^-47`) of `66.0` and rounds to
`66.0`; `Duration::from_secs_f64 66.0` is exactly 66 s.  Hence the margin
window is exactly 66 seconds = 66e9 nanoseconds. -/
def WINDOW_START_MARGIN_NS : Nat := 66 * 1000000000

/-- PatinaSystemMonitor::trim_time_series (src/app.rs lines 211-217):
trim the store at cutoff `now − WINDOW_LENGTH × 1.1`.  (In Rust the
`Duration` subtraction panics when `now` is within 66 s of the epoch;
truncating `Nat` subtraction agrees with it on every realistic clock.) -/
def trim_time_series (now : Nat) (self : TimeSeries OwnedParsedLine) : TimeSeries OwnedParsedLine :=
  self.trim_older_than (now - WINDOW_START_MARGIN_NS)

/-- The queued contents of the intake mpsc channel at drain time: the
(socket address, batch) items in FIFO order, socket addresses as strings. -/
abbrev IntakeQueue := List (String × List OwnedParsedLine)

/-- PatinaSystemMonitor::recv_metrics (src/app.rs lines 219-225): drain the
channel without blocking (try_iter yields exactly the queued items, FIFO) and
push every record of every batch, keyed by its own unix_timestamp. -/
def recv_metrics (self : TimeSeries OwnedParsedLine) (queued : IntakeQueue) :
    TimeSeries OwnedParsedLine :=
  queued.foldl (fun acc x => x.2.foldl (fun acc line => acc.push line.unix_timestamp line) acc) self

/-- The data path of eframe::App::update for PatinaSystemMonitor
(src/app.rs lines 295-298): `trim_time_series` first, then `recv_metrics`;
the remainder of the method is presentation only. -/
def update (now : Nat) (self : TimeSeries OwnedParsedLine) (queued : IntakeQueue) :
    TimeSeries OwnedParsedLine :=
  recv_metrics (trim_time_series now self) queued

/-- Modelled from the spec (sections 2 and 4.5): the refresh cycle as the
spec words it — drain and append every record first, "then trimming".
Stated only to be compared against `update`, which embeds the code. -/
def spec_update (now : Nat) (self : TimeSeries OwnedParsedLine) (queued : IntakeQueue) :
    TimeSeries OwnedParsedLine :=
  trim_time_series now (recv_metrics self queued)

/-- The result of the external `parse_lines` on one statement of an input
line: a parse error (message) or a borrowed ParsedLine. -/
abbrev ParseResult := Except String ParsedLine

/-- The statement pipeline of handle_client for one input line
(src/app.rs lines 369-372): keep the Ok results, unwrap and convert each.
`filterMap` is `filter(is_ok)` followed by `map(unwrap.into)`. -/
def line_batch (now : Nat) (results : List ParseResult) : List OwnedParsedLine :=
  results.filterMap (fun r => r.toOption.map (OwnedParsedLine.from_parsed now))

/-- Externally visible action of handle_client: a channel send of
(socket address, batch), or a repaint request on the egui context. -/
inductive HandlerEvent : Type where
  | send (addr : String) (batch : List OwnedParsedLine)
  | repaint
  deriving DecidableEq, Repr

/-- The line loop of handle_client (src/app.rs lines 358-386), restricted to
successful line reads (an Err(e) line read logs and breaks, ending the list).
Each line's statements are parsed and batched, the batch is sent with the
peer's socket address, and — when the consumer end of the channel is still
alive, so the send succeeds — a repaint is requested and the loop continues;
a failed send returns immediately. -/
def handle_client (addr : String) (now : Nat) (consumer_alive : Bool) :
    List (List ParseResult) → List HandlerEvent
  | [] => []
  | res :: rest =>
      HandlerEvent.send addr (line_batch now res) ::
        if consumer_alive then HandlerEvent.repaint :: handle_client addr now consumer_alive rest
        else []

/-- Observable event of the listener thread (src/app.rs lines 187-202):
a try_recv check of the shutdown channel at the head of the outer while, an
accepted connection, or a failed accept (logged, loop continues). -/
inductive ListenEvent : Type where
  | check
  | accept (i : Nat)
  | accept_err (i : Nat)
  deriving DecidableEq, Repr

/-- The inner `for stream in listener.incoming()` loop (src/app.rs lines
189-199) over the successive accept outcomes `conns` (true = Ok, false =
Err), numbering connections from `i`.  It performs no shutdown check. -/
def incoming_loop (i : Nat) : List Bool → List ListenEvent
  | [] => []
  | ok :: rest =>
      (if ok then ListenEvent.accept i else ListenEvent.accept_err i) :: incoming_loop (i + 1) rest

/-- One iteration of the outer while loop (src/app.rs lines 188-200): the
shutdown channel is checked once (`try_recv() != Err(Disconnected)`), and if
it does not report disconnection the inner accept loop runs.
`listener.incoming()` never yields None for a blocking listener, so the inner
loop never terminates; `conns` is the finite prefix of accept outcomes under
observation, all handled inside this single iteration. -/
def accept_loop_iteration (shutdown_disconnected : Bool) (conns : List Bool) : List ListenEvent :=
  ListenEvent.check :: if shutdown_disconnected then [] else incoming_loop 0 conns

/-! ### Helper lemmas -/

/-- The trim loop splits its input into an evicted prefix, every element of
which is strictly older than the cutoff, and the retained suffix, whose first
element (if any) is at-or-after the cutoff. -/
theorem trimLoop_split (cutoff : Nat) (l : List (TimeSeriesDatum T)) :
    ∃ pre, l = pre ++ trimLoop cutoff l ∧
      (∀ d ∈ pre, d.unix_timestamp < cutoff) ∧
      (∀ d ∈ (trimLoop cutoff l).head?, cutoff ≤ d.unix_timestamp) := by
  induction l with
  | nil => exact ⟨[], by simp [trimLoop]⟩
  | cons d rest ih =>
      by_cases h : d.unix_timestamp < cutoff
      · obtain ⟨pre, hpre, hlt, hhead⟩ := ih
        refine ⟨d :: pre, ?_, ?_, ?_⟩
        · simpa [trimLoop, h] using hpre
        · intro x hx
          rcases List.mem_cons.mp hx with hx | hx
          · simpa [hx] using h
          · exact hlt x hx
        · simpa [trimLoop, h] using hhead
      · refine ⟨[], by simp [trimLoop, h], by simp, ?_⟩
        simpa [trimLoop, h] using Nat.le_of_not_lt h

/-- Pushing a batch record-by-record appends the batch, each record keyed by
its own timestamp, at the back. -/
theorem foldl_push_data (batch : List OwnedParsedLine) (s : TimeSeries OwnedParsedLine) :
    (batch.foldl (fun acc line => acc.push line.unix_timestamp line) s).data =
      s.data ++ batch.map (fun line => ⟨line.unix_timestamp, line⟩) := by
  induction batch generalizing s with
  | nil => simp
  | cons line rest ih =>
      rw [List.foldl_cons, ih]
      simp [TimeSeries.push]

/-- recv_metrics appends the concatenation of the queued batches, in item
order with batch order preserved, at the back of the store. -/
theorem recv_metrics_data (s : TimeSeries OwnedParsedLine) (queued : IntakeQueue) :
    (recv_metrics s queued).data =
      s.data ++ queued.flatMap
        (fun x => x.2.map (fun line => ⟨line.unix_timestamp, line⟩)) := by
  induction queued generalizing s with
  | nil => simp [recv_metrics]
  | cons item rest ih =>
      simp only [recv_metrics, List.foldl_cons] at ih ⊢
      rw [ih, foldl_push_data]
      simp

/-! ### Scenario inputs -/

/-- A record with the given measurement name and timestamp, no tags, no
fields. -/
def record_at (name : String) (ts_ns : Nat) : OwnedParsedLine := ⟨name, [], [], ts_ns⟩

/-- Claim C1 scenario clock: now = t = 100 s past the epoch (nanoseconds). -/
def c1_now : Nat := 100 * 1000000000

/-- Claim C1 scenario store: records at t−70 s, t−65 s, t−30 s, t−1 s. -/
def c1_store : TimeSeries OwnedParsedLine :=
  ⟨[⟨30 * 1000000000, record_at "t_minus_70s" (30 * 1000000000)⟩,
    ⟨35 * 1000000000, record_at "t_minus_65s" (35 * 1000000000)⟩,
    ⟨70 * 1000000000, record_at "t_minus_30s" (70 * 1000000000)⟩,
    ⟨99 * 1000000000, record_at "t_minus_1s" (99 * 1000000000)⟩]⟩

/-! ### Claim theorems -/

/-- Claim C1: for every time series and every cutoff, trim removes from the
front exactly the maximal prefix of elements whose timestamp is strictly
earlier than the cutoff and stops at the first element at-or-after the
cutoff; with the cutoff computed as now minus 60 s times 1.1, records at
t−70 s, t−65 s, t−30 s, t−1 s result in t−70 s evicted and the rest
retained. -/
theorem trim_evicts_exactly_the_stale_prefix :
    (∀ (T : Type) (cutoff : Nat) (s : TimeSeries T), ∃ pre,
        s.data = pre ++ (s.trim_older_than cutoff).data ∧
        (∀ d ∈ pre, d.unix_timestamp < cutoff) ∧
        (∀ d ∈ (s.trim_older_than cutoff).data.head?, cutoff ≤ d.unix_timestamp)) ∧
    trim_time_series c1_now c1_store =
      ⟨[⟨35 * 1000000000, record_at "t_minus_65s" (35 * 1000000000)⟩,
        ⟨70 * 1000000000, record_at "t_minus_30s" (70 * 1000000000)⟩,
        ⟨99 * 1000000000, record_at "t_minus_1s" (99 * 1000000000)⟩]⟩ := by
  refine ⟨fun T cutoff s => trimLoop_split cutoff s.data, ?_⟩
  decide

/-- A record whose timestamp (0, the epoch) is far older than any eviction
cutoff computed at `c1_now`. -/
def stale_record : OwnedParsedLine := ⟨"stale", [], [], 0⟩

/-- Claim C2 counterexample: the refresh cycle of the code (`update`, which
trims first and then drains-and-appends) disagrees with the claimed order
(`spec_update`, drain-and-append then trim) on a queued record older than
the cutoff: the code keeps it for the cycle, the claimed order evicts it. -/
theorem update_order_counterexample :
    ¬ update c1_now (TimeSeries.new OwnedParsedLine) [("127.0.0.1:50000", [stale_record])] =
        spec_update c1_now (TimeSeries.new OwnedParsedLine) [("127.0.0.1:50000", [stale_record])] := by
  decide

/-- Claim C2 (amended): in every consumer refresh cycle the Store is trimmed
first, and only then is the intake channel drained with every contained
Record appended: the cycle's result is the trimmed previous contents
followed by every drained record in drain order, so a drained record —
however stale — is present in the Store at the end of the cycle that
drained it. -/
theorem update_trims_then_drains_and_appends :
    ∀ (now : Nat) (s : TimeSeries OwnedParsedLine) (queued : IntakeQueue),
      (update now s queued).data =
        (trim_time_series now s).data ++
          queued.flatMap (fun x => x.2.map (fun line => ⟨line.unix_timestamp, line⟩)) := by
  intro now s queued
  exact recv_metrics_data _ _

/-- Claim C3: draining appends records into the Store in FIFO item order
with each batch's internal order preserved; in particular items
(a, [r1, r2]) then (b, [r3]) append r1, r2, r3 in that order. -/
theorem drain_appends_in_fifo_order :
    (∀ (s : TimeSeries OwnedParsedLine) (queued : IntakeQueue),
        (recv_metrics s queued).data =
          s.data ++ queued.flatMap
            (fun x => x.2.map (fun line => ⟨line.unix_timestamp, line⟩))) ∧
    (∀ (s : TimeSeries OwnedParsedLine) (a b : String) (r1 r2 r3 : OwnedParsedLine),
        (recv_metrics s [(a, [r1, r2]), (b, [r3])]).data =
          s.data ++ [⟨r1.unix_timestamp, r1⟩, ⟨r2.unix_timestamp, r2⟩,
            ⟨r3.unix_timestamp, r3⟩]) := by
  refine ⟨recv_metrics_data, ?_⟩
  intro s a b r1 r2 r3
  rw [recv_metrics_data]
  rfl

/-- Claim C4: the conversion to an owned Record uses the wire timestamp when
it is present and convertible to a non-negative duration, and otherwise —
including when the wire timestamp is present but negative — sets the
Record's timestamp to the conversion-time wall clock `now`. -/
theorem from_parsed_timestamp_choice :
    ∀ (now : Nat) (p : ParsedLine),
      (p.timestamp = none → (OwnedParsedLine.from_parsed now p).unix_timestamp = now) ∧
      (∀ ns : Int, p.timestamp = some ns → 0 ≤ ns →
        (OwnedParsedLine.from_parsed now p).unix_timestamp = ns.toNat) ∧
      (∀ ns : Int, p.timestamp = some ns → ns < 0 →
        (OwnedParsedLine.from_parsed now p).unix_timestamp = now) := by
  intro now p
  refine ⟨?_, ?_, ?_⟩
  · intro h
    simp [OwnedParsedLine.from_parsed, h]
  · intro ns h hpos
    simp [OwnedParsedLine.from_parsed, h, i64_try_into_u64, hpos]
  · intro ns h hneg
    simp [OwnedParsedLine.from_parsed, h, i64_try_into_u64, Int.not_le.mpr hneg]

/-- Claim C4 witness: the three timestamp cases at concrete inputs. -/
theorem from_parsed_timestamp_choice_witness :
    (OwnedParsedLine.from_parsed 5 ⟨"m", none, [], some (-3)⟩).unix_timestamp = 5 ∧
    (OwnedParsedLine.from_parsed 5 ⟨"m", none, [], some 7⟩).unix_timestamp = 7 ∧
    (OwnedParsedLine.from_parsed 5 ⟨"m", none, [], none⟩).unix_timestamp = 5 :=
  ⟨(from_parsed_timestamp_choice 5 _).2.2 (-3) rfl (by decide),
   (from_parsed_timestamp_choice 5 _).2.1 7 rfl (by decide),
   (from_parsed_timestamp_choice 5 _).1 rfl⟩

/-- Claim C5: the numeric projection yields 1 for boolean true, 0 for
boolean false, 0 for any text value, and the exact value for the integer and
float kinds; and the field lookup returns the caller-supplied default when
the named field is absent. -/
theorem numeric_projection_and_default :
    f64_from_measurement (.Boolean true) = 1 ∧
    f64_from_measurement (.Boolean false) = 0 ∧
    (∀ s : String, f64_from_measurement (.String s) = 0) ∧
    (∀ i : Int, f64_from_measurement (.I64 i) = (i : ℚ)) ∧
    (∀ u : Nat, f64_from_measurement (.U64 u) = (u : ℚ)) ∧
    (∀ f : ℚ, f64_from_measurement (.F64 f) = f) ∧
    (∀ (line : OwnedParsedLine) (name : String) (d : ℚ),
        line.fields.find? (fun kv => kv.1 == name) = none →
        line.get_field_as_f64 name d = d) := by
  refine ⟨rfl, rfl, fun s => rfl, fun i => rfl, fun u => rfl, fun f => rfl, ?_⟩
  intro line name d h
  simp [OwnedParsedLine.get_field_as_f64, h]

/-- Claim C5 witness: on a record with no fields, the lookup returns the
supplied default. -/
theorem numeric_projection_and_default_witness :
    (record_at "m" 0).get_field_as_f64 "usage_idle" 7 = 7 :=
  numeric_projection_and_default.2.2.2.2.2.2 (record_at "m" 0) "usage_idle" 7 rfl

/-- Claim C6: statements that fail to parse are discarded without affecting
the other statements of the same line or the rest of the stream: a batch is
exactly the converted Ok statements in parse order, a malformed statement
leaves the batch of its own line otherwise unchanged, and a line containing
a malformed statement leaves every other line's handling unchanged. -/
theorem parse_failures_are_isolated :
    (∀ (now : Nat) (pre post : List ParseResult) (e : String),
        line_batch now (pre ++ Except.error e :: post) = line_batch now (pre ++ post)) ∧
    (∀ (now : Nat) (oks : List ParsedLine),
        line_batch now (oks.map Except.ok) = oks.map (OwnedParsedLine.from_parsed now)) ∧
    (∀ (addr : String) (now : Nat) (l1 l2 : List (List ParseResult))
        (pre post : List ParseResult) (e : String),
        handle_client addr now true (l1 ++ (pre ++ Except.error e :: post) :: l2) =
          handle_client addr now true (l1 ++ (pre ++ post) :: l2)) := by
  have hbatch : ∀ (now : Nat) (pre post : List ParseResult) (e : String),
      line_batch now (pre ++ Except.error e :: post) = line_batch now (pre ++ post) := by
    intro now pre post e
    simp [line_batch, Except.toOption]
  refine ⟨hbatch, ?_, ?_⟩
  · intro now oks
    induction oks with
    | nil => rfl
    | cons p rest ih =>
        simp only [line_batch, List.map_cons, List.filterMap_cons, Except.toOption,
          Option.map_some] at ih ⊢
        exact congrArg _ ih
  · intro addr now l1 l2 pre post e
    induction l1 with
    | nil => simp [handle_client, hbatch]
    | cons l l1 ih => simp [handle_client, ih]

/-- Claim C7: the conversion from a successfully parsed line to an owned
Record is total: every parsed line yields a Record, with every component
defined — measurement and tags copied, every field mapped through the value
union, and the timestamp either the wall clock or the non-negative wire
timestamp. -/
theorem from_parsed_is_total :
    ∀ (now : Nat) (p : ParsedLine), ∃ r : OwnedParsedLine,
      OwnedParsedLine.from_parsed now p = r ∧
      r.measurement = p.measurement ∧
      r.tags = p.tag_set.getD [] ∧
      r.fields = p.field_set.map (fun kv => (kv.1, measurement_from_field kv.2)) ∧
      (r.unix_timestamp = now ∨
        ∃ ns : Int, p.timestamp = some ns ∧ 0 ≤ ns ∧ r.unix_timestamp = ns.toNat) := by
  intro now p
  refine ⟨OwnedParsedLine.from_parsed now p, rfl, rfl, rfl, rfl, ?_⟩
  rcases hts : p.timestamp with _ | ns
  · left
    simp [OwnedParsedLine.from_parsed, hts]
  · by_cases hpos : 0 ≤ ns
    · right
      refine ⟨ns, rfl, hpos, ?_⟩
      simp [OwnedParsedLine.from_parsed, hts, i64_try_into_u64, hpos]
    · left
      simp [OwnedParsedLine.from_parsed, hts, i64_try_into_u64, hpos]

/-- True exactly on the shutdown-check event. -/
def ListenEvent.is_check : ListenEvent → Bool
  | .check => true
  | _ => false

/-- Claim C8, the code evaluated at the failing input: one outer while
iteration checks the shutdown channel exactly once, at its head; the inner
accept loop never re-checks it between accepted connections.  With two
incoming connections the observable trace is check, accept 0, accept 1 —
there is no check between the two accepts, so a shutdown signalled after the
first accept is not observed before the second. -/
theorem shutdown_checked_only_at_iteration_head :
    accept_loop_iteration false [true, true] =
      [ListenEvent.check, ListenEvent.accept 0, ListenEvent.accept 1] ∧
    (∀ conns : List Bool,
        (accept_loop_iteration false conns).countP ListenEvent.is_check = 1) := by
  constructor
  · rfl
  · intro conns
    have h : ∀ (i : Nat) (cs : List Bool),
        (incoming_loop i cs).countP ListenEvent.is_check = 0 := by
      intro i cs
      induction cs generalizing i with
      | nil => rfl
      | cons ok rest ih => cases ok <;> simp [incoming_loop, ListenEvent.is_check, ih]
    simp [accept_loop_iteration, List.countP_cons, ListenEvent.is_check, h]

/-- A store is aligned when every buffered element's indexing timestamp
equals the unix_timestamp of the record it holds. -/
def Aligned (s : TimeSeries OwnedParsedLine) : Prop :=
  ∀ d ∈ s.data, d.unix_timestamp = d.data.unix_timestamp

/-- Claim C9: the alignment invariant — every element's indexing timestamp
equals its record's own unix_timestamp — is established by drain-and-append
(each record is pushed keyed by its own timestamp) and preserved by trimming
(which only removes elements); hence a whole update cycle preserves it. -/
theorem store_alignment_invariant :
    ∀ (s : TimeSeries OwnedParsedLine) (queued : IntakeQueue) (now cutoff : Nat),
      Aligned s →
      Aligned (recv_metrics s queued) ∧
      Aligned (s.trim_older_than cutoff) ∧
      Aligned (update now s queued) := by
  have hrecv : ∀ (s : TimeSeries OwnedParsedLine) (q : IntakeQueue),
      Aligned s → Aligned (recv_metrics s q) := by
    intro s q hs d hd
    rw [recv_metrics_data] at hd
    rcases List.mem_append.mp hd with h | h
    · exact hs d h
    · obtain ⟨x, _, hd'⟩ := List.mem_flatMap.mp h
      obtain ⟨line, _, rfl⟩ := List.mem_map.mp hd'
      rfl
  have htrim : ∀ (s : TimeSeries OwnedParsedLine) (c : Nat),
      Aligned s → Aligned (s.trim_older_than c) := by
    intro s c hs d hd
    obtain ⟨pre, hsplit, -, -⟩ := trimLoop_split c s.data
    refine hs d ?_
    rw [hsplit]
    exact List.mem_append_right _ hd
  intro s q now cutoff hs
  exact ⟨hrecv s q hs, htrim s cutoff hs,
    hrecv (trim_time_series now s) q (htrim s (now - WINDOW_START_MARGIN_NS) hs)⟩

/-- Claim C9 witness: the invariant at concrete inputs, starting from the
empty store. -/
theorem store_alignment_invariant_witness :
    Aligned (recv_metrics (TimeSeries.new OwnedParsedLine) [("127.0.0.1:50000", [stale_record])]) ∧
    Aligned ((TimeSeries.new OwnedParsedLine).trim_older_than 3) ∧
    Aligned (update c1_now (TimeSeries.new OwnedParsedLine) [("127.0.0.1:50000", [stale_record])]) :=
  store_alignment_invariant (TimeSeries.new OwnedParsedLine) [("127.0.0.1:50000", [stale_record])]
    c1_now 3 (by intro d hd; simp [TimeSeries.new] at hd)

/-- True exactly on a channel-send event. -/
def HandlerEvent.is_send : HandlerEvent → Bool
  | .send _ _ => true
  | .repaint => false

/-- True exactly on a repaint event. -/
def HandlerEvent.is_repaint : HandlerEvent → Bool
  | .send _ _ => false
  | .repaint => true

/-- Claim C10: with the consumer alive, every line successfully read
produces exactly one channel send and one repaint — a line with zero valid
statements still produces a send whose batch is empty — and appending an
empty batch leaves the Store unchanged. -/
theorem one_send_and_one_repaint_per_line :
    (∀ (addr : String) (now : Nat) (lines : List (List ParseResult)),
        (handle_client addr now true lines).countP HandlerEvent.is_send = lines.length ∧
        (handle_client addr now true lines).countP HandlerEvent.is_repaint = lines.length) ∧
    (∀ (addr : String) (now : Nat) (e : String),
        handle_client addr now true [[Except.error e]] =
          [HandlerEvent.send addr [], HandlerEvent.repaint]) ∧
    (∀ (s : TimeSeries OwnedParsedLine) (a : String), recv_metrics s [(a, [])] = s) := by
  refine ⟨?_, ?_, ?_⟩
  · intro addr now lines
    induction lines with
    | nil => exact ⟨rfl, rfl⟩
    | cons res rest ih =>
        constructor <;>
          simp [handle_client, List.countP_cons, HandlerEvent.is_send,
            HandlerEvent.is_repaint, ih.1, ih.2]
  · intro addr now e
    rfl
  · intro s a
    rfl

end Patina
